import Mathlib

/-!
Verification of the QR scanner record pipeline.

The repository ships two browser apps sharing one architecture:
`src/app.js` (an Aadhaar QR scanner) and the first script of
`src/unnamed/part_000` (a contact-card QR scanner).  This file shallowly
embeds the pure core of both: the text-cleaning helpers, the payload
decoder grammars, the record store (dedup key, merge, ordering) and the
scan-result handler with its duplicate-suppression window.

Environment-provided capabilities (DOMParser, JSON.parse, the
DecompressionStream inflate step, Date.now) are modelled as explicit
parameters of the functions that consume them, exactly at the call sites
where the JavaScript reaches out of the page; everything else is
transcribed from the source.  JavaScript strings are modelled as `String`
/ `List Char`, byte arrays as `List Nat` (each entry < 256 in practice),
timestamps as `Int`, and `undefined`-able values as `Option`.
-/

namespace QrSpec

/-! ## Shared text helpers (identical in `src/app.js` and `src/unnamed/part_000`) -/

/-- The character class of the JavaScript regex `\s` (WhiteSpace and
LineTerminator code points), used by `cleanText`, `trim`, and the
whitespace-stripping in the secure-QR digit test. -/
def jsWs (c : Char) : Bool :=
  [9, 10, 11, 12, 13, 32, 160, 0x1680, 0x2028, 0x2029, 0x202F, 0x205F, 0x3000, 0xFEFF].contains c.toNat
    || (decide (0x2000 ≤ c.toNat) && decide (c.toNat ≤ 0x200A))

/-- `String.prototype.trim()` on a character list: drop leading and trailing
whitespace. -/
def trimL (l : List Char) : List Char :=
  ((l.dropWhile (fun c => jsWs c)).reverse.dropWhile (fun c => jsWs c)).reverse

theorem length_dropWhile_le' (p : Char → Bool) (l : List Char) :
    (l.dropWhile p).length ≤ l.length := by
  induction l with
  | nil => simp [List.dropWhile]
  | cons c rest ih =>
    simp only [List.dropWhile]
    split
    · exact Nat.le_succ_of_le ih
    · simp

theorem length_takeWhile_le' (p : Char → Bool) (l : List Char) :
    (l.takeWhile p).length ≤ l.length := by
  induction l with
  | nil => simp [List.takeWhile]
  | cons c rest ih =>
    simp only [List.takeWhile]
    split
    · simpa using Nat.succ_le_succ ih
    · simp

/-- `value.replace(/\s+/g, ' ')`: collapse each maximal whitespace run to a
single space (a whitespace character is dropped while the next character is
also whitespace, and becomes the single replacement space at the end of its
run). -/
def collapseWsL : List Char → List Char
  | [] => []
  | [c] => if jsWs c then [' '] else [c]
  | c :: c2 :: rest =>
    if jsWs c then
      if jsWs c2 then collapseWsL (c2 :: rest)
      else ' ' :: collapseWsL (c2 :: rest)
    else c :: collapseWsL (c2 :: rest)

/-- `cleanText` from both sources: `(value || '').replace(/\s+/g, ' ').trim()`. -/
def cleanTextL (l : List Char) : List Char := trimL (collapseWsL l)

/-- `cleanText` on `String`. -/
def cleanText (s : String) : String := String.mk (cleanTextL s.toList)

/-- `(raw || '').trim()`. -/
def trimS (s : String) : String := String.mk (trimL s.toList)

/-- `value.replace(/\s+/g, '')` (whitespace stripping before the secure-QR
digit test). -/
def stripWs (s : String) : String := String.mk (s.toList.filter (fun c => !jsWs c))

/-- `/^\d{50,}$/.test(s)`: the whole string is decimal digits, at least 50 of
them. -/
def isDigits50 (s : String) : Bool :=
  decide (50 ≤ s.toList.length) && s.toList.all (fun c => c.isDigit)

/-- `BigInt(digits)` for an all-digit string (which cannot throw). -/
def digitsToNat (s : String) : Nat :=
  s.toList.foldl (fun a c => a * 10 + (c.toNat - 48)) 0

/-- A JavaScript `a || b || ... || last` chain over possibly-`undefined`
string values, as consumed by a cleaner that coerces every falsy value to the
empty string: the first non-empty present value, or `""`. -/
def pickTruthy : List (Option String) → String
  | [] => ""
  | o :: rest => if (o.getD "").isEmpty then pickTruthy rest else o.getD ""

/-- `normalizeGender` from both sources: trim, then a case-insensitive prefix
match on the first letter (`m` → Male, `f` → Female, `t` → Transgender,
anything else passes through trimmed).  `toLowerCase` is modelled by
`Char.toLower`, which agrees on the ASCII inputs this app sees. -/
def normalizeGender (value : String) : String :=
  let cleaned := trimL value.toList
  if cleaned.isEmpty then ""
  else
    let lower := cleaned.map Char.toLower
    if lower.take 1 = ['m'] then "Male"
    else if lower.take 1 = ['f'] then "Female"
    else if lower.take 1 = ['t'] then "Transgender"
    else String.mk cleaned

/-- `joinAddress` from `src/app.js`: clean every part, drop empties, join
with `", "`. -/
def joinAddress (parts : List String) : String :=
  String.intercalate ", " ((parts.map cleanText).filter (fun p => !p.isEmpty))

/-! ## The record store shape shared by both variants

`state.records` is a JavaScript `Map` (insertion-ordered, unique keys),
modelled as an association list where `set` replaces in place or appends;
`state.order` is the explicit most-recently-touched-first key sequence. -/

/-- `Map.prototype.get`. -/
def mapGet {α : Type} : List (String × α) → String → Option α
  | [], _ => none
  | (k', v) :: rest, k => if k' = k then some v else mapGet rest k

/-- `Map.prototype.set`: replace the entry in place if the key exists,
otherwise append. -/
def mapSet {α : Type} : List (String × α) → String → α → List (String × α)
  | [], k, v => [(k, v)]
  | (k', v') :: rest, k, v =>
    if k' = k then (k, v) :: rest else (k', v') :: mapSet rest k v

/-- The two parallel structures of the record store. -/
structure Store (α : Type) where
  records : List (String × α) := []
  order : List String := []
deriving Repr, DecidableEq

/-- What `upsertRecord` reports through `setStatus`. -/
inductive UpsertOutcome
  | noKey
  | captured
  | updated
deriving Repr, DecidableEq

/-- `config.duplicateCooldownMs` (1200 in both sources). -/
def duplicateCooldownMs : Int := 1200

/-- The lockstep invariant of §3: the order sequence has no duplicates, the
mapping has one entry per key, and the two carry exactly the same key set. -/
def StoreInv {α : Type} (st : Store α) : Prop :=
  st.order.Nodup ∧ (st.records.map Prod.fst).Nodup ∧
    ∀ k, k ∈ st.order ↔ k ∈ st.records.map Prod.fst

/-! ## `src/app.js` — the Aadhaar QR variant -/

namespace App

/-- The record object literals built by the `src/app.js` parsers.  JavaScript
object spread distinguishes an absent property from a present empty string,
so every field is an `Option String` (`none` = property absent). -/
structure Record where
  uid : Option String := none
  referenceId : Option String := none
  name : Option String := none
  gender : Option String := none
  dob : Option String := none
  yob : Option String := none
  address : Option String := none
  pin : Option String := none
  source : Option String := none
  lastSeen : Option String := none
deriving Repr, DecidableEq

/-- `recordKey` from `src/app.js`: `record.uid || record.referenceId || ''`. -/
def recordKey (r : Record) : String :=
  if (r.uid.getD "").isEmpty then r.referenceId.getD "" else r.uid.getD ""

/-- The merge `{ ...existing, ...record, lastSeen: formatLastSeen(now) }`:
per field, the incoming record's property wins whenever it is present (even
when it is the empty string); `lastSeen` is always restamped.  `nowStr`
stands for `formatLastSeen(new Date())`. -/
def spreadMerge (existing : Option Record) (record : Record) (nowStr : String) : Record :=
  { uid := record.uid <|> existing.bind (fun e => e.uid)
    referenceId := record.referenceId <|> existing.bind (fun e => e.referenceId)
    name := record.name <|> existing.bind (fun e => e.name)
    gender := record.gender <|> existing.bind (fun e => e.gender)
    dob := record.dob <|> existing.bind (fun e => e.dob)
    yob := record.yob <|> existing.bind (fun e => e.yob)
    address := record.address <|> existing.bind (fun e => e.address)
    pin := record.pin <|> existing.bind (fun e => e.pin)
    source := record.source <|> existing.bind (fun e => e.source)
    lastSeen := some nowStr }

/-- `upsertRecord` from `src/app.js` lines 288-309. -/
def upsertRecord (st : Store Record) (record : Record) (nowStr : String) :
    Store Record × UpsertOutcome :=
  let key := recordKey record
  if key.isEmpty then (st, .noKey)
  else
    let existing := mapGet st.records key
    let next := spreadMerge existing record nowStr
    ({ records := mapSet st.records key next
       order := key :: st.order.filter (fun item => item ≠ key) },
     if existing.isSome then .updated else .captured)

/-! ### The structured-markup (XML) grammar

`DOMParser.parseFromString` is an environment capability; the document it
returns is modelled as the data the parsers interrogate: whether a
`parsererror` element is present, and the element lists for each of the
three recognized root names.  An element node is modelled by its
`getAttribute` function (`none` = attribute absent, i.e. `null`). -/

/-- An element node: `getAttribute`. -/
def Node : Type := String → Option String

/-- `<OfflinePaperlessKyc>` root: its own attributes plus its `Poi` and
`Poa` child element lists. -/
structure OfflineNode where
  attr : Node
  poiNodes : List Node
  poaNodes : List Node

/-- What the `src/app.js` XML path reads off a parsed document. -/
structure XmlDoc where
  hasParserError : Bool
  printLetterNodes : List Node
  offlineNodes : List OfflineNode
  okyNodes : List Node

/-- `extractXml` from `src/app.js`: slice from the first `<` (or fail) and
trim. -/
def extractXml (raw : String) : Option String :=
  let fromLt := raw.toList.dropWhile (fun c => c ≠ '<')
  if fromLt.isEmpty then none else some (String.mk (trimL fromLt))

/-- `parsePrintLetter` from `src/app.js` lines 319-351: every field is the
raw attribute value (`getAttribute(name) || ''`); only the assembled
`address` passes through `joinAddress`'s cleaning. -/
def parsePrintLetter (node : Node) : Record :=
  let attr := fun (name : String) => (node name).getD ""
  { uid := some (attr "uid")
    name := some (attr "name")
    gender := some (attr "gender")
    dob := some (attr "dob")
    yob := some (attr "yob")
    pin := some (attr "pc")
    address := some (joinAddress
      [attr "co", attr "house", attr "street", attr "lm", attr "loc",
       attr "vtc", attr "po", attr "dist", attr "subdist", attr "state",
       attr "pc"])
    source := some "PrintLetterBarcodeData" }

/-- `parseOfflinePaperless` from `src/app.js` lines 353-389. -/
def parseOfflinePaperless (root : OfflineNode) : Record :=
  let referenceId := pickTruthy [root.attr "referenceId", root.attr "referenceid"]
  let poi := root.poiNodes.head?
  let poa := root.poaNodes.head?
  let poiAttr := fun (name : String) => ((poi.bind (fun n => n name)).getD "")
  let poaAttr := fun (name : String) => (poa.bind (fun n => n name))
  let pin := (poaAttr "pc").getD ""
  { referenceId := some referenceId
    name := some (poiAttr "name")
    dob := some (poiAttr "dob")
    yob := some (poiAttr "yob")
    gender := some (poiAttr "gender")
    pin := some pin
    address := some (match poa with
      | none => ""
      | some n => joinAddress
          [(n "house").getD "", (n "street").getD "", (n "lm").getD "",
           (n "loc").getD "", (n "vtc").getD "", (n "subdist").getD "",
           (n "dist").getD "", (n "state").getD "", pin, (n "po").getD ""])
    source := some "OfflinePaperlessKyc" }

/-- `parseOkY` from `src/app.js` lines 391-406. -/
def parseOkY (oky : Node) : Record :=
  let attr := fun (name : String) => (oky name).getD ""
  { referenceId := some (attr "r")
    name := some (attr "n")
    dob := some (attr "d")
    gender := some (attr "g")
    address := some (attr "a")
    source := some "OKY" }

/-- `parseXmlPayload` from `src/app.js` lines 408-435, with the DOM parse
step supplied by the environment. -/
def parseXmlPayload (domParse : String → XmlDoc) (raw : String) : Option Record :=
  match extractXml raw with
  | none => none
  | some xmlText =>
    let doc := domParse xmlText
    if doc.hasParserError then none
    else match doc.printLetterNodes with
      | n :: _ => some (parsePrintLetter n)
      | [] => match doc.offlineNodes with
        | n :: _ => some (parseOfflinePaperless n)
        | [] => match doc.okyNodes with
          | n :: _ => some (parseOkY n)
          | [] => none

/-! ### The binary Secure-format grammar -/

/-- `bigIntToBytes` from `src/app.js` lines 437-448, minus the zero special
case: repeatedly `unshift(temp & 0xff)` then `temp >>= 8n`. -/
def bigIntToBytesGo (n : Nat) : List Nat :=
  if n = 0 then []
  else bigIntToBytesGo (n / 256) ++ [n % 256]
decreasing_by exact Nat.div_lt_self (Nat.pos_of_ne_zero (by assumption)) (by omega)

/-- `bigIntToBytes` from `src/app.js`: minimal big-endian bytes, zero maps to
a single zero byte. -/
def bigIntToBytes (value : Nat) : List Nat :=
  if value = 0 then [0] else bigIntToBytesGo value

/-- Reconstruction of an integer from big-endian bytes (most-significant
first), the spec's §8 round-trip partner of `bigIntToBytes`. -/
def bytesToNat (bytes : List Nat) : Nat :=
  bytes.foldl (fun acc b => acc * 256 + b) 0

/-- The field-splitting loop of `parseSecureQrBytes` (`src/app.js` lines
464-472): scan the bytes, pushing the chunk since the previous delimiter at
every `0xFF`, and stop scanning once 16 fields have been collected. -/
def secureFieldsGo : List Nat → List Nat → List (List Nat) → List (List Nat)
  | [], _, fields => fields.reverse
  | b :: rest, cur, fields =>
    if 16 ≤ fields.length then fields.reverse
    else if b = 255 then secureFieldsGo rest [] (cur.reverse :: fields)
    else secureFieldsGo rest (b :: cur) fields

/-- The fields collected by `parseSecureQrBytes`. -/
def secureFields (bytes : List Nat) : List (List Nat) :=
  secureFieldsGo bytes [] []

/-- All `0xFF`-terminated chunks of a byte sequence (the unbounded version of
the split; a trailing chunk not terminated by `0xFF` is not a field). -/
def delimChunksGo : List Nat → List Nat → List (List Nat)
  | [], _ => []
  | b :: rest, cur =>
    if b = 255 then cur.reverse :: delimChunksGo rest []
    else delimChunksGo rest (b :: cur)

/-- All `0xFF`-terminated chunks of a byte sequence. -/
def delimChunks (bytes : List Nat) : List (List Nat) :=
  delimChunksGo bytes []

/-- `textDecoder.decode` with the `iso-8859-1` decoder declared at
`src/app.js` line 173: each byte becomes the character of the same code
point. -/
def latin1Decode (bytes : List Nat) : List Char :=
  bytes.map Char.ofNat

/-- The decoded-and-cleaned field at position `i` of the secure split. -/
def secureDecodedField (bytes : List Nat) (i : Nat) : String :=
  String.mk (cleanTextL (latin1Decode ((secureFields bytes).getD i [])))

/-- `parseSecureQrBytes` from `src/app.js` lines 463-525. -/
def parseSecureQrBytes (bytes : List Nat) : Option Record :=
  let fields := secureFields bytes
  if fields.length < 16 then none
  else
    let decoded := fields.map (fun chunk => String.mk (cleanTextL (latin1Decode chunk)))
    let indicator := decoded.getD 0 ""
    let referenceId := decoded.getD 1 ""
    let name := decoded.getD 2 ""
    let dob := decoded.getD 3 ""
    let gender := decoded.getD 4 ""
    let careOf := decoded.getD 5 ""
    let district := decoded.getD 6 ""
    let landmark := decoded.getD 7 ""
    let house := decoded.getD 8 ""
    let location := decoded.getD 9 ""
    let pin := decoded.getD 10 ""
    let postOffice := decoded.getD 11 ""
    let stateField := decoded.getD 12 ""
    let street := decoded.getD 13 ""
    let subDistrict := decoded.getD 14 ""
    let vtc := decoded.getD 15 ""
    if indicator.isEmpty || referenceId.isEmpty then none
    else some
      { referenceId := some referenceId
        name := some name
        gender := some gender
        dob := some dob
        address := some (joinAddress
          [careOf, house, street, landmark, location, vtc, subDistrict,
           district, stateField, pin, postOffice])
        pin := some pin
        source := some "Secure QR" }

/-- The environment capabilities `src/app.js` consumes on the decode path:
the DOM parser, the `DecompressionStream` presence flag, the raw-deflate
inflate itself, and the formatted `lastSeen` stamp. -/
structure Env where
  domParse : String → XmlDoc
  hasDecompressionStream : Bool
  inflateImpl : List Nat → Option (List Nat)
  nowStr : String

/-- `inflateBytes` from `src/app.js` lines 450-461: `null` when
`DecompressionStream` is absent, otherwise the environment's inflate (which
yields `null` on any decompression error). -/
def inflateBytes (env : Env) (bytes : List Nat) : Option (List Nat) :=
  if env.hasDecompressionStream then env.inflateImpl bytes else none

/-- `parseSecureQr` from `src/app.js` lines 527-545. -/
def parseSecureQr (env : Env) (raw : String) : Option Record :=
  let digits := stripWs raw
  if isDigits50 digits then
    match inflateBytes env (bigIntToBytes (digitsToNat digits)) with
    | none => none
    | some inflated => parseSecureQrBytes inflated
  else none

/-- `parseAadhaarPayload` from `src/app.js` lines 547-564: trim, then the
grammar cascade (structured markup first, then the binary secure format). -/
def parseAadhaarPayload (env : Env) (raw : String) : Option Record :=
  let trimmed := trimS raw
  if trimmed.isEmpty then none
  else match parseXmlPayload env.domParse trimmed with
    | some xmlRecord => some xmlRecord
    | none => match parseSecureQr env trimmed with
      | some secureRecord => some secureRecord
      | none => none

/-- What `handleScanResult` reports for one scan event. -/
inductive Outcome
  | suppressed
  | capabilityMissing
  | secureDecodeFailed
  | unrecognizedFormat
  | noIdentityKey
  | recordCaptured
  | recordUpdated
deriving Repr, DecidableEq

/-- The scan-level state `src/app.js` keeps in `state`. -/
structure ScanState where
  lastValue : Option String := none
  lastValueTs : Int := 0
  store : Store Record := {}
deriving Repr, DecidableEq

/-- `handleScanResult` from `src/app.js` lines 566-588, with `Date.now()`
passed in as `now`. -/
def handleScanResult (env : Env) (st : ScanState) (value : String) (now : Int) :
    ScanState × Outcome :=
  if st.lastValue = some value ∧ now - st.lastValueTs < duplicateCooldownMs then
    (st, .suppressed)
  else
    let st1 : ScanState := { st with lastValue := some value, lastValueTs := now }
    let compact := stripWs value
    let looksNumeric := isDigits50 compact
    if looksNumeric && !env.hasDecompressionStream then (st1, .capabilityMissing)
    else match parseAadhaarPayload env value with
      | none => (st1, if looksNumeric then .secureDecodeFailed else .unrecognizedFormat)
      | some record =>
        match upsertRecord st1.store record env.nowStr with
        | (store', outcome) =>
          ({ st1 with store := store' },
           match outcome with
           | .noKey => .noIdentityKey
           | .captured => .recordCaptured
           | .updated => .recordUpdated)

end App

/-! ## `src/unnamed/part_000` (first script) — the contact-card variant -/

namespace Contacts

/-- The contact record: `upsertRecord` always writes all six fields, so they
are plain strings (empty = blank). -/
structure Record where
  username : String := ""
  dob : String := ""
  age : String := ""
  gender : String := ""
  mobile : String := ""
  email : String := ""
deriving Repr, DecidableEq

/-- `cleanPhone`: keep only digits and `+`. -/
def cleanPhone (value : String) : String :=
  String.mk (value.toList.filter (fun c => c.isDigit || c = '+'))

/-- `cleanEmail`: trim and lower-case. -/
def cleanEmail (value : String) : String :=
  String.mk ((trimL value.toList).map Char.toLower)

/-- `recordKey` from `src/unnamed/part_000` lines 214-228. -/
def recordKey (r : Record) : String :=
  if !r.email.isEmpty then "email:" ++ r.email
  else if !r.mobile.isEmpty then "mobile:" ++ r.mobile
  else if !r.username.isEmpty && !r.dob.isEmpty then
    "user:" ++ String.mk (r.username.toList.map Char.toLower) ++ "|" ++ r.dob
  else if !r.username.isEmpty then
    "user:" ++ String.mk (r.username.toList.map Char.toLower)
  else ""

/-- The field-wise merge of `upsertRecord` (`record.f || existing.f || ''`
per field, with `existing = records.get(key) || {}`). -/
def fieldMerge (existing : Option Record) (record : Record) : Record :=
  let exF := fun (f : Record → String) => (existing.map f).getD ""
  { username := if record.username.isEmpty then exF (fun e => e.username) else record.username
    dob := if record.dob.isEmpty then exF (fun e => e.dob) else record.dob
    age := if record.age.isEmpty then exF (fun e => e.age) else record.age
    gender := if record.gender.isEmpty then exF (fun e => e.gender) else record.gender
    mobile := if record.mobile.isEmpty then exF (fun e => e.mobile) else record.mobile
    email := if record.email.isEmpty then exF (fun e => e.email) else record.email }

/-- `upsertRecord` from `src/unnamed/part_000` lines 298-322. -/
def upsertRecord (st : Store Record) (record : Record) :
    Store Record × UpsertOutcome :=
  let key := recordKey record
  if key.isEmpty then (st, .noKey)
  else
    let existing := mapGet st.records key
    let next := fieldMerge existing record
    ({ records := mapSet st.records key next
       order := key :: st.order.filter (fun item => item ≠ key) },
     match existing with
     | some e =>
       if !e.username.isEmpty || !e.email.isEmpty || !e.mobile.isEmpty
       then .updated else .captured
     | none => .captured)

/-- `saveRecords` (`src/unnamed/part_000` lines 285-296): the snapshot is the
order sequence mapped to `(key, record)` pairs, dropping keys with no
mapping entry. -/
def saveRecords (st : Store Record) : List (String × Record) :=
  st.order.filterMap (fun key => (mapGet st.records key).map (fun r => (key, r)))

/-- The per-entry cleaning `loadRecords` applies on restore. -/
def cleanEntry (r : Record) : Record :=
  { username := cleanText r.username
    dob := cleanText r.dob
    age := cleanText r.age
    gender := normalizeGender r.gender
    mobile := cleanPhone r.mobile
    email := cleanEmail r.email }

/-- `loadRecords` from `src/unnamed/part_000` lines 451-479: for each
structurally valid entry (truthy `key`), clean the fields, `set` the record
and push the key onto the order sequence. -/
def loadRecords (st : Store Record) (entries : List (String × Record)) :
    Store Record :=
  entries.foldl
    (fun s e =>
      if e.1.isEmpty then s
      else { records := mapSet s.records e.1 (cleanEntry e.2)
             order := s.order ++ [e.1] })
    st

/-- Modelled from the spec: `clear()` (§4.4 "empty both structures") — the
repository's record-store scripts expose no clear operation in `src/`, so
this op is taken from the specification's words. -/
def clearStore : Store Record := {}

/-! ### The three generic grammars -/

/-- `parseJsonPayload` from `src/unnamed/part_000` lines 324-341.
`JSON.parse` is an environment capability: `jsonObj raw` is `none` when the
parse throws or yields a non-object, otherwise the property-lookup function
of the parsed object (string-valued properties; `none` = property absent). -/
def parseJsonPayload (jsonObj : String → Option (String → Option String))
    (raw : String) : Option Record :=
  match jsonObj raw with
  | none => none
  | some j => some
    { username := cleanText (pickTruthy [j "username", j "user", j "name"])
      dob := cleanText (pickTruthy [j "dob", j "dateOfBirth", j "birth", j "birthDate"])
      age := cleanText (pickTruthy [j "age"])
      gender := normalizeGender (pickTruthy [j "gender"])
      mobile := cleanPhone (pickTruthy [j "mobile", j "phone", j "phoneNumber"])
      email := cleanEmail (pickTruthy [j "email", j "mail"]) }

/-- `[^:=;\n|,]` — the key-side character class of the key-value regex. -/
def kvClassA (c : Char) : Bool :=
  !([':', '=', ';', '\n', '|', ','].contains c)

/-- `[^;\n|,]` — the value-side character class of the key-value regex. -/
def kvClassB (c : Char) : Bool :=
  !([';', '\n', '|', ','].contains c)

/-- One attempt of `/([^:=;\n|,]+)\s*[:=]\s*([^;\n|,]+)/` anchored at the
head of `l`: `none` when no match starts here, otherwise the two captured
groups and the remainder after the match.  The first group is the maximal
key-class run; the first `\s*` then consumes the (necessarily
newline-initial, since every other whitespace character is in the key
class) whitespace run before the separator, so inputs like `"key\n:value"`
match.  The `val.isEmpty` branch is the regex engine backtracking the
second `\s*`: when nothing value-like follows the whitespace after the
separator, the last non-newline whitespace character itself becomes the
(blank-trimming) second group. -/
def kvMatchAt (l : List Char) : Option ((List Char × List Char) × List Char) :=
  let run := l.takeWhile kvClassA
  if run.isEmpty then none
  else
    let afterRun := l.drop run.length
    let ws1 := afterRun.takeWhile (fun c => jsWs c)
    match afterRun.drop ws1.length with
    | [] => none
    | sep :: rest0 =>
      if sep = ':' ∨ sep = '=' then
        let ws := rest0.takeWhile (fun c => jsWs c)
        let after := rest0.drop ws.length
        let val := after.takeWhile kvClassB
        if val.isEmpty then
          let wsRev := ws.reverse
          let nls := wsRev.takeWhile (fun c => c = '\n')
          match wsRev.drop nls.length with
          | [] => none
          | c :: _ => some ((run, [c]), nls ++ after)
        else some ((run, val), after.drop val.length)
      else none

theorem kvMatchAt_shrink {l rest' : List Char} {p : List Char × List Char}
    (h : kvMatchAt l = some (p, rest')) : rest'.length < l.length := by
  simp only [kvMatchAt] at h
  split at h
  · exact absurd h (by simp)
  next hre =>
  split at h
  next hd => exact absurd h (by simp)
  next sep rest0 hd =>
  have hlen : rest0.length < l.length := by
    have h1 := congrArg List.length hd
    simp only [List.length_drop, List.length_cons] at h1
    have h2 := length_takeWhile_le' kvClassA l
    omega
  split at h
  case isFalse => exact absurd h (by simp)
  case isTrue hsep =>
  have hax : (rest0.drop (rest0.takeWhile (fun c => jsWs c)).length).length
      = rest0.length - (rest0.takeWhile (fun c => jsWs c)).length :=
    List.length_drop _ _
  have hwr := length_takeWhile_le' (fun c => jsWs c) rest0
  split at h
  · -- the value group is empty: the regex backtracks into the whitespace
    split at h
    next hnl => exact absurd h (by simp)
    next c restc hnl =>
      have hr' := (Prod.mk.injEq _ _ _ _ ▸ (Option.some.injEq _ _ ▸ h)).2
      have hwlen :
          ((rest0.takeWhile (fun c => jsWs c)).reverse.takeWhile
            (fun c => c = '\n')).length < (rest0.takeWhile (fun c => jsWs c)).length := by
        have h3 := congrArg List.length hnl
        simp only [List.length_drop, List.length_cons, List.length_reverse] at h3
        have h4 := length_takeWhile_le' (fun c => c = '\n')
          (rest0.takeWhile (fun c => jsWs c)).reverse
        simp only [List.length_reverse] at h4
        omega
      rw [← hr']
      simp only [List.length_append]
      omega
  · -- the value group is the maximal run after the whitespace
    have hr' := (Prod.mk.injEq _ _ _ _ ▸ (Option.some.injEq _ _ ▸ h)).2
    rw [← hr']
    have h5 := List.length_drop
      ((rest0.drop (rest0.takeWhile (fun c => jsWs c)).length).takeWhile kvClassB).length
      (rest0.drop (rest0.takeWhile (fun c => jsWs c)).length)
    omega

/-- The `regex.exec` loop of `parseKeyValuePayload`: collect matches left to
right, resuming after each match, advancing one character past positions
where no match starts. -/
def kvScan (l : List Char) : List (List Char × List Char) :=
  match hm : kvMatchAt l with
  | some (p, rest') => p :: kvScan rest'
  | none =>
    match l with
    | [] => []
    | _ :: rest => kvScan rest
termination_by l.length
decreasing_by
  · exact kvMatchAt_shrink hm
  · simp

/-- Building the `record` object of `parseKeyValuePayload`: trim and
lower-case the key, trim the value, skip empty keys, later assignments to
the same key overwrite. -/
def kvRecordObj (pairs : List (List Char × List Char)) : List (String × String) :=
  pairs.foldl
    (fun obj p =>
      let key := String.mk ((trimL p.1).map Char.toLower)
      let value := String.mk (trimL p.2)
      if key.isEmpty then obj else mapSet obj key value)
    []

/-- `parseKeyValuePayload` from `src/unnamed/part_000` lines 343-369. -/
def parseKeyValuePayload (raw : String) : Option Record :=
  if !(raw.toList.any (fun c => c = '=' ∨ c = ':')) then none
  else
    let obj := kvRecordObj (kvScan raw.toList)
    if obj.isEmpty then none
    else
      let get := fun (k : String) => mapGet obj k
      some
        { username := cleanText (pickTruthy [get "username", get "user", get "name"])
          dob := cleanText (pickTruthy
            [get "dob", get "dateofbirth", get "birth", get "birthdate"])
          age := cleanText (pickTruthy [get "age"])
          gender := normalizeGender (pickTruthy [get "gender"])
          mobile := cleanPhone (pickTruthy [get "mobile", get "phone", get "phonenumber"])
          email := cleanEmail (pickTruthy [get "email", get "mail"]) }

/-- `String.prototype.split(delimiter)` on character lists. -/
def splitChar (d : Char) : List Char → List (List Char)
  | [] => [[]]
  | c :: rest =>
    if c = d then [] :: splitChar d rest
    else match splitChar d rest with
      | [] => [[c]]
      | p :: ps => (c :: p) :: ps

/-- `parseDelimitedPayload` from `src/unnamed/part_000` lines 371-401. -/
def parseDelimitedPayload (raw : String) : Option Record :=
  let trimmed := trimL raw.toList
  if trimmed.isEmpty then none
  else
    let delimiter :=
      if trimmed.contains '|' then some '|'
      else if trimmed.contains ',' then some ','
      else if trimmed.contains ';' then some ';'
      else none
    match delimiter with
    | none => none
    | some d =>
      let parts := ((splitChar d trimmed).map trimL).filter (fun p => !p.isEmpty)
      if parts.length < 6 then none
      else some
        { username := cleanText (String.mk (parts.getD 0 []))
          dob := cleanText (String.mk (parts.getD 1 []))
          age := cleanText (String.mk (parts.getD 2 []))
          gender := normalizeGender (String.mk (parts.getD 3 []))
          mobile := cleanPhone (String.mk (parts.getD 4 []))
          email := cleanEmail (String.mk (parts.getD 5 [])) }

/-- The environment capability the contact decoder consumes: `JSON.parse`. -/
structure Env where
  jsonObj : String → Option (String → Option String)

/-- `parseQrPayload` from `src/unnamed/part_000` lines 403-425: trim, then
the grammar cascade (JSON, then key-value, then delimited). -/
def parseQrPayload (env : Env) (raw : String) : Option Record :=
  let trimmed := trimS raw
  if trimmed.isEmpty then none
  else match parseJsonPayload env.jsonObj trimmed with
    | some jsonRecord => some jsonRecord
    | none => match parseKeyValuePayload trimmed with
      | some kvRecord => some kvRecord
      | none => match parseDelimitedPayload trimmed with
        | some delimitedRecord => some delimitedRecord
        | none => none

/-- `isRecordUsable` from `src/unnamed/part_000` lines 427-432. -/
def isRecordUsable : Option Record → Bool
  | none => false
  | some r => !r.username.isEmpty || !r.email.isEmpty || !r.mobile.isEmpty

/-- What the contact-variant `handleScanResult` reports for one scan
event. -/
inductive Outcome
  | suppressed
  | unrecognizedFormat
  | noIdentityKey
  | recordStored
  | recordUpdated
deriving Repr, DecidableEq

/-- The scan-level state of the contact variant. -/
structure ScanState where
  lastValue : Option String := none
  lastValueTs : Int := 0
  store : Store Record := {}
deriving Repr, DecidableEq

/-- `handleScanResult` from `src/unnamed/part_000` lines 434-449, with
`Date.now()` passed in as `now`. -/
def handleScanResult (env : Env) (st : ScanState) (value : String) (now : Int) :
    ScanState × Outcome :=
  if st.lastValue = some value ∧ now - st.lastValueTs < duplicateCooldownMs then
    (st, .suppressed)
  else
    let st1 : ScanState := { st with lastValue := some value, lastValueTs := now }
    let record := parseQrPayload env value
    if !isRecordUsable record then (st1, .unrecognizedFormat)
    else match record with
      | none => (st1, .unrecognizedFormat)
      | some r =>
        match upsertRecord st1.store r with
        | (store', outcome) =>
          ({ st1 with store := store' },
           match outcome with
           | .noKey => .noIdentityKey
           | .captured => .recordStored
           | .updated => .recordUpdated)

/-- The store states reachable by the program's record-store operations:
the empty initial store, `upsertRecord`, the spec-modelled `clear`, and
restoring a previously produced snapshot (the spec's `restore` replaces the
contents; in the source `loadRecords` runs exactly once, on the empty
startup store). -/
inductive Reach : Store Record → Prop
  | init : Reach {}
  | upsert {s : Store Record} (r : Record) : Reach s → Reach (upsertRecord s r).1
  | clear {s : Store Record} : Reach s → Reach clearStore
  | restore {s s' : Store Record} : Reach s → Reach s' →
      Reach (loadRecords clearStore (saveRecords s'))

end Contacts

/-- Modelled from the spec (§4.3, §9): the decoder cascade as "a simple
first-success fold" over an ordered list of grammar attempt functions.  The
two cascade functions of the sources are proved equal to this fold. -/
def firstSuccess {α : Type} (grammars : List (String → Option α)) (s : String) :
    Option α :=
  grammars.foldl (fun acc g => acc.orElse (fun _ => g s)) none

/-- A closed sample of the `src/app.js` environment (no DOM match, no
decompression capability), used to exercise the handler theorems on concrete
inputs. -/
def sampleAppEnv : App.Env :=
  { domParse := fun _ =>
      { hasParserError := true, printLetterNodes := [], offlineNodes := [], okyNodes := [] }
    hasDecompressionStream := false
    inflateImpl := fun _ => none
    nowStr := "2026-01-01 00:00" }

/-- A closed sample of the contact-variant environment (`JSON.parse` always
fails). -/
def sampleContactsEnv : Contacts.Env := { jsonObj := fun _ => none }

/-! ## Helper lemmas about the store primitives -/

theorem mapGet_mapSet_self {α : Type} (m : List (String × α)) (k : String) (v : α) :
    mapGet (mapSet m k v) k = some v := by
  induction m with
  | nil => simp [mapSet, mapGet]
  | cons p rest ih =>
    obtain ⟨k', v'⟩ := p
    by_cases h : k' = k
    · simp [mapSet, h, mapGet]
    · simp [mapSet, h, mapGet, ih]

theorem mapGet_none_iff {α : Type} (m : List (String × α)) (k : String) :
    mapGet m k = none ↔ k ∉ m.map Prod.fst := by
  induction m with
  | nil => simp [mapGet]
  | cons p rest ih =>
    obtain ⟨k', v'⟩ := p
    by_cases h : k' = k
    · simp [mapGet, h]
    · simp only [mapGet, h, if_false, List.map_cons, List.mem_cons, ih]
      constructor
      · intro hn hor
        rcases hor with hor | hor
        · exact h hor.symm
        · exact hn hor
      · intro hn
        intro hm
        exact hn (Or.inr hm)

theorem mapSet_keys_of_mem {α : Type} {m : List (String × α)} {k : String} (v : α)
    (h : k ∈ m.map Prod.fst) : (mapSet m k v).map Prod.fst = m.map Prod.fst := by
  induction m with
  | nil => simp at h
  | cons p rest ih =>
    obtain ⟨k', v'⟩ := p
    by_cases hk : k' = k
    · simp [mapSet, hk]
    · have hm : k ∈ rest.map Prod.fst := by
        simp only [List.map_cons, List.mem_cons] at h
        rcases h with h | h
        · exact absurd h.symm hk
        · exact h
      simp [mapSet, hk, ih hm]

theorem mapSet_keys_of_not_mem {α : Type} {m : List (String × α)} {k : String} (v : α)
    (h : k ∉ m.map Prod.fst) : (mapSet m k v).map Prod.fst = m.map Prod.fst ++ [k] := by
  induction m with
  | nil => simp [mapSet]
  | cons p rest ih =>
    obtain ⟨k', v'⟩ := p
    simp only [List.map_cons, List.mem_cons] at h
    push_neg at h
    have hk : k' ≠ k := fun hkk => h.1 hkk.symm
    simp [mapSet, hk, ih h.2]

/-- The common `Map.set` + order-resequencing step of both `upsertRecord`s
preserves the lockstep invariant. -/
theorem storeSet_inv {α : Type} {st : Store α} (hinv : StoreInv st) (k : String) (v : α) :
    StoreInv { records := mapSet st.records k v
               order := k :: st.order.filter (fun item => item ≠ k) } := by
  obtain ⟨hord, hkeys, hmem⟩ := hinv
  refine ⟨?_, ?_, ?_⟩
  · refine List.nodup_cons.mpr ⟨?_, hord.filter _⟩
    intro hk
    have := (List.mem_filter.mp hk).2
    simp at this
  · by_cases h : k ∈ st.records.map Prod.fst
    · rw [mapSet_keys_of_mem v h]; exact hkeys
    · rw [mapSet_keys_of_not_mem v h]
      simp only [List.nodup_append, List.nodup_cons, List.nodup_nil]
      exact ⟨hkeys, by simp, by simpa [List.disjoint_singleton] using h⟩
  · intro k'
    simp only [List.mem_cons]
    by_cases h : k ∈ st.records.map Prod.fst
    · rw [mapSet_keys_of_mem v h]
      constructor
      · intro hk'
        rcases hk' with rfl | hk'
        · exact h
        · exact (hmem k').mp (List.mem_filter.mp hk').1
      · intro hk'
        by_cases hkk : k' = k
        · exact Or.inl hkk
        · exact Or.inr (List.mem_filter.mpr ⟨(hmem k').mpr hk', by simpa using hkk⟩)
    · rw [mapSet_keys_of_not_mem v h]
      simp only [List.mem_append, List.mem_singleton]
      constructor
      · intro hk'
        rcases hk' with rfl | hk'
        · exact Or.inr rfl
        · exact Or.inl ((hmem k').mp (List.mem_filter.mp hk').1)
      · intro hk'
        rcases hk' with hk' | rfl
        · by_cases hkk : k' = k
          · exact Or.inl hkk
          · exact Or.inr (List.mem_filter.mpr ⟨(hmem k').mpr hk', by simpa using hkk⟩)
        · exact Or.inl rfl

theorem storeInv_empty {α : Type} : StoreInv ({} : Store α) :=
  ⟨List.nodup_nil, List.nodup_nil, by simp⟩

/-! ## Helper lemmas about the secure-format split -/

theorem secureFieldsGo_eq (bytes : List Nat) :
    ∀ (cur : List Nat) (fields : List (List Nat)),
      App.secureFieldsGo bytes cur fields
        = fields.reverse ++ (App.delimChunksGo bytes cur).take (16 - fields.length) := by
  induction bytes with
  | nil => intro cur fields; simp [App.secureFieldsGo, App.delimChunksGo]
  | cons b rest ih =>
    intro cur fields
    simp only [App.secureFieldsGo, App.delimChunksGo]
    by_cases h16 : 16 ≤ fields.length
    · rw [if_pos h16]
      have hz : 16 - fields.length = 0 := by omega
      rw [hz]
      simp
    · rw [if_neg h16]
      by_cases hb : b = 255
      · rw [if_pos hb, if_pos hb, ih]
        have hs : 16 - fields.length = (16 - (cur.reverse :: fields).length) + 1 := by
          simp only [List.length_cons]; omega
        rw [hs, List.take_succ_cons]
        simp [List.append_assoc]
      · rw [if_neg hb, if_neg hb, ih]

theorem secureFields_take (bytes : List Nat) :
    App.secureFields bytes = (App.delimChunks bytes).take 16 := by
  have h := secureFieldsGo_eq bytes [] []
  simpa [App.secureFields, App.delimChunks] using h

/-! ## Helper lemmas about the big-integer byte conversion -/

theorem bigIntToBytesGo_foldl (n : Nat) :
    ∀ acc : Nat,
      (App.bigIntToBytesGo n).foldl (fun a b => a * 256 + b) acc
        = acc * 256 ^ (App.bigIntToBytesGo n).length + n := by
  induction n using Nat.strong_induction_on with
  | _ n ih =>
    intro acc
    by_cases h : n = 0
    · subst h; simp [App.bigIntToBytesGo]
    · rw [App.bigIntToBytesGo, if_neg h, List.foldl_append,
        ih (n / 256) (Nat.div_lt_self (Nat.pos_of_ne_zero h) (by omega))]
      simp only [List.foldl_cons, List.foldl_nil, List.length_append,
        List.length_singleton]
      rw [pow_succ, ← Nat.mul_assoc]
      omega

theorem getD_map_lt {α β : Type} (f : α → β) (l : List α) (i : Nat) (d : α) (db : β)
    (h : i < l.length) : (l.map f).getD i db = f (l.getD i d) := by
  rw [List.getD_eq_getElem?_getD, List.getD_eq_getElem?_getD, List.getElem?_map,
    List.getElem?_eq_getElem h]
  simp

/-! ## Helper lemmas about the scan-result handlers -/

theorem app_handle_suppressed (env : App.Env) (st : App.ScanState) (value : String)
    (now : Int) (h1 : st.lastValue = some value)
    (h2 : now - st.lastValueTs < duplicateCooldownMs) :
    App.handleScanResult env st value now = (st, .suppressed) := by
  unfold App.handleScanResult
  rw [if_pos ⟨h1, h2⟩]

theorem contacts_handle_suppressed (env : Contacts.Env) (st : Contacts.ScanState)
    (value : String) (now : Int) (h1 : st.lastValue = some value)
    (h2 : now - st.lastValueTs < duplicateCooldownMs) :
    Contacts.handleScanResult env st value now = (st, .suppressed) := by
  unfold Contacts.handleScanResult
  rw [if_pos ⟨h1, h2⟩]

theorem app_handle_arms (env : App.Env) (st : App.ScanState) (value : String)
    (now : Int)
    (hdup : ¬(st.lastValue = some value ∧ now - st.lastValueTs < duplicateCooldownMs)) :
    (App.handleScanResult env st value now).1.lastValue = some value
      ∧ (App.handleScanResult env st value now).1.lastValueTs = now := by
  unfold App.handleScanResult
  rw [if_neg hdup]
  dsimp only
  split
  · exact ⟨rfl, rfl⟩
  · split
    · exact ⟨rfl, rfl⟩
    · split <;> exact ⟨rfl, rfl⟩

theorem contacts_handle_arms (env : Contacts.Env) (st : Contacts.ScanState)
    (value : String) (now : Int)
    (hdup : ¬(st.lastValue = some value ∧ now - st.lastValueTs < duplicateCooldownMs)) :
    (Contacts.handleScanResult env st value now).1.lastValue = some value
      ∧ (Contacts.handleScanResult env st value now).1.lastValueTs = now := by
  unfold Contacts.handleScanResult
  rw [if_neg hdup]
  dsimp only
  split
  · exact ⟨rfl, rfl⟩
  · split
    · exact ⟨rfl, rfl⟩
    · split <;> exact ⟨rfl, rfl⟩

theorem kvScan_step {l rest' : List Char} {p : List Char × List Char}
    (h : Contacts.kvMatchAt l = some (p, rest')) :
    Contacts.kvScan l = p :: Contacts.kvScan rest' := by
  rw [Contacts.kvScan]
  split
  next p2 rest2 heq =>
    rw [h] at heq
    injection heq with h1
    injection h1 with h2 h3
    rw [h2, h3]
  next heq =>
    rw [h] at heq
    cases heq

theorem kvScan_nil : Contacts.kvScan [] = [] := by
  rw [Contacts.kvScan]
  rfl

theorem empty_isEmpty : ("" : String).isEmpty = true := rfl

theorem isEmpty_false_of_ne {s : String} (h : s ≠ "") : s.isEmpty = false := by
  cases hE : s.isEmpty
  · rfl
  · exact absurd ((String.isEmpty_iff _).mp hE) h

theorem contacts_upsert_inv {st : Store Contacts.Record} (h : StoreInv st)
    (r : Contacts.Record) : StoreInv (Contacts.upsertRecord st r).1 := by
  simp only [Contacts.upsertRecord]
  split
  · exact h
  · exact storeSet_inv h _ _

theorem app_upsert_inv {st : Store App.Record} (h : StoreInv st)
    (r : App.Record) (ns : String) : StoreInv (App.upsertRecord st r ns).1 := by
  simp only [App.upsertRecord]
  split
  · exact h
  · exact storeSet_inv h _ _

theorem filter_eq_self_of {α : Type} (p : α → Bool) :
    ∀ l : List α, (∀ a ∈ l, p a = true) → l.filter p = l := by
  intro l h
  induction l with
  | nil => rfl
  | cons a rest ih =>
    rw [List.filter_cons, if_pos (h a (by simp))]
    rw [ih (fun b hb => h b (by simp [hb]))]

theorem saveRecords_keys (st : Store Contacts.Record) :
    (Contacts.saveRecords st).map Prod.fst
      = st.order.filter (fun k => (mapGet st.records k).isSome) := by
  unfold Contacts.saveRecords
  have hgen : ∀ l : List String,
      (l.filterMap (fun key => (mapGet st.records key).map (fun r => (key, r)))).map
          Prod.fst
        = l.filter (fun k => (mapGet st.records k).isSome) := by
    intro l
    induction l with
    | nil => rfl
    | cons k rest ih =>
      cases hk : mapGet st.records k with
      | none => simp [List.filterMap_cons, List.filter_cons, hk, ih]
      | some v => simp [List.filterMap_cons, List.filter_cons, hk, ih]
  exact hgen st.order

theorem loadRecords_inv :
    ∀ (entries : List (String × Contacts.Record)) (st : Store Contacts.Record),
      StoreInv st →
      ((entries.map Prod.fst).filter (fun k => !k.isEmpty)).Nodup →
      (∀ k ∈ entries.map Prod.fst, k.isEmpty = false → k ∉ st.order) →
      StoreInv (Contacts.loadRecords st entries) := by
  intro entries
  induction entries with
  | nil =>
    intro st h _ _
    simpa [Contacts.loadRecords] using h
  | cons e rest ih =>
    intro st h hnd hdisj
    have hstep : Contacts.loadRecords st (e :: rest)
        = Contacts.loadRecords
            (if e.1.isEmpty then st
             else { records := mapSet st.records e.1 (Contacts.cleanEntry e.2)
                    order := st.order ++ [e.1] }) rest := by
      simp only [Contacts.loadRecords, List.foldl_cons]
    rw [hstep]
    by_cases he : e.1.isEmpty
    · rw [if_pos he]
      apply ih st h
      · have : ((e.1 :: rest.map Prod.fst).filter (fun k => !k.isEmpty)).Nodup := by
          simpa using hnd
        rwa [List.filter_cons, if_neg (by simp [he])] at this
      · intro k hk hke
        exact hdisj k (by simp [hk]) hke
    · rw [if_neg he]
      have he' : e.1.isEmpty = false := by
        cases hb : e.1.isEmpty
        · rfl
        · exact absurd hb he
      have hne : e.1 ∉ st.order := hdisj e.1 (by simp) he'
      have hnk : e.1 ∉ st.records.map Prod.fst := fun hm => hne ((h.2.2 e.1).mpr hm)
      have hfc : (e.1 :: rest.map Prod.fst).filter (fun k => !k.isEmpty)
          = e.1 :: (rest.map Prod.fst).filter (fun k => !k.isEmpty) := by
        rw [List.filter_cons, if_pos (by simp [he'])]
      have hnd' : (e.1 :: (rest.map Prod.fst).filter (fun k => !k.isEmpty)).Nodup := by
        rw [← hfc]
        simpa using hnd
      have hinv' : StoreInv
          { records := mapSet st.records e.1 (Contacts.cleanEntry e.2)
            order := st.order ++ [e.1] } := by
        refine ⟨?_, ?_, ?_⟩
        · rw [List.nodup_append]
          exact ⟨h.1, by simp, by simpa [List.disjoint_singleton] using hne⟩
        · rw [mapSet_keys_of_not_mem _ hnk, List.nodup_append]
          exact ⟨h.2.1, by simp, by simpa [List.disjoint_singleton] using hnk⟩
        · intro k
          rw [mapSet_keys_of_not_mem _ hnk]
          simp only [List.mem_append, List.mem_singleton]
          constructor
          · intro hk
            rcases hk with hk | hk
            · exact Or.inl ((h.2.2 k).mp hk)
            · exact Or.inr hk
          · intro hk
            rcases hk with hk | hk
            · exact Or.inl ((h.2.2 k).mpr hk)
            · exact Or.inr hk
      apply ih _ hinv' (List.nodup_cons.mp hnd').2
      intro k hk hke
      have hkne : k ≠ e.1 := by
        intro hkk
        exact (List.nodup_cons.mp hnd').1
          (List.mem_filter.mpr ⟨hkk ▸ hk, by simp [hkk ▸ hke]⟩)
      simp only [List.mem_append, List.mem_singleton]
      rintro (hmem | hmem)
      · exact hdisj k (by simp [hk]) hke hmem
      · exact hkne hmem

/-! ## The claims -/

/-- C1 (counterexample): in `src/app.js`, upserting a record that carries an
empty `name` under the same dedup key as a stored record with a non-blank
`name` overwrites the stored value with the empty string — the object-spread
merge lets emptiness overwrite a known value. -/
theorem c1_counterexample :
    (mapGet (App.upsertRecord
        (App.upsertRecord {} { uid := some "1", name := some "Alice" } "t1").1
        { uid := some "1", name := some "" } "t2").1.records "1").map
          (fun r => r.name) = some (some "")
    ∧ (mapGet (App.upsertRecord
        (App.upsertRecord {} { uid := some "1", name := some "Alice" } "t1").1
        { uid := some "1", name := some "" } "t2").1.records "1").map
          (fun r => r.name) ≠ some (some "Alice") := by
  constructor
  · decide
  · decide

/-- C1 (amended): merge non-destructiveness holds for the contact-card
variant (`src/unnamed/part_000`), whose `upsertRecord` merges field-wise
with `record.f || existing.f || ''`: for every record stored under the dedup
key, every field the incoming record leaves empty keeps its stored value. -/
theorem c1_contacts_merge_nondestructive :
    ∀ (st : Store Contacts.Record) (r ex : Contacts.Record),
      Contacts.recordKey r ≠ "" →
      mapGet st.records (Contacts.recordKey r) = some ex →
      ∃ m, mapGet (Contacts.upsertRecord st r).1.records (Contacts.recordKey r) = some m
        ∧ (r.username = "" → m.username = ex.username)
        ∧ (r.dob = "" → m.dob = ex.dob)
        ∧ (r.age = "" → m.age = ex.age)
        ∧ (r.gender = "" → m.gender = ex.gender)
        ∧ (r.mobile = "" → m.mobile = ex.mobile)
        ∧ (r.email = "" → m.email = ex.email) := by
  intro st r ex hk hex
  have hke := isEmpty_false_of_ne hk
  refine ⟨Contacts.fieldMerge (some ex) r, ?_, ?_, ?_, ?_, ?_, ?_, ?_⟩
  · simp [Contacts.upsertRecord, hke, hex, mapGet_mapSet_self]
  · intro hu; simp [Contacts.fieldMerge, hu, empty_isEmpty]
  · intro hu; simp [Contacts.fieldMerge, hu, empty_isEmpty]
  · intro hu; simp [Contacts.fieldMerge, hu, empty_isEmpty]
  · intro hu; simp [Contacts.fieldMerge, hu, empty_isEmpty]
  · intro hu; simp [Contacts.fieldMerge, hu, empty_isEmpty]
  · intro hu; simp [Contacts.fieldMerge, hu, empty_isEmpty]

/-- C1 (witness): a concrete non-destructive merge — after storing
`{username u, email e}` and upserting `{email e}` (blank username), the
stored username is still `u`. -/
theorem c1_witness :
    ∃ m, mapGet (Contacts.upsertRecord
        (Contacts.upsertRecord {} { username := "u", email := "e" }).1
        { email := "e" }).1.records "email:e" = some m ∧ m.username = "u" := by
  obtain ⟨m, hm, hu, -, -, -, -, -⟩ :=
    c1_contacts_merge_nondestructive
      (Contacts.upsertRecord {} { username := "u", email := "e" }).1
      { email := "e" } { username := "u", email := "e" } (by decide) (by decide)
  exact ⟨m, hm, hu rfl⟩

/-- C2 (counterexample): the structured-markup grammar of `src/app.js` does
not normalize the `gender` field in the Record it produces: a
`PrintLetterBarcodeData` node with `name="A" gender="M"` yields a Record
whose `gender` is the raw `"M"`, not `"Male"`. -/
theorem c2_counterexample :
    (App.parsePrintLetter (fun a =>
        if a = "name" then some "A"
        else if a = "gender" then some "M" else none)).gender = some "M"
    ∧ ("M" : String) ≠ "Male" := by
  constructor
  · rfl
  · decide

/-- C2 (amended): the structured-markup grammar stores attribute values raw
(every scalar field of `parsePrintLetter`'s Record is exactly the raw
attribute, uncleaned and unnormalized — only the assembled address is
cleaned); gender normalization (`"M"` → `"Male"`) is applied by
`normalizeGender`, which the app runs only at render time.  Every Record the
three generic grammars of `src/unnamed/part_000` produce has its text fields
cleaned (`cleanText` / `cleanPhone` / `cleanEmail`) and its gender passed
through `normalizeGender`; every Record the binary Secure-format grammar
produces carries the cleaned decoded fields (`secureDecodedField` is the
whitespace-collapsed, trimmed decoding of the chunk). -/
theorem c2_gender_normalization_amended :
    (∀ node : App.Node,
        (App.parsePrintLetter node).uid = some ((node "uid").getD "")
        ∧ (App.parsePrintLetter node).name = some ((node "name").getD "")
        ∧ (App.parsePrintLetter node).gender = some ((node "gender").getD "")
        ∧ (App.parsePrintLetter node).dob = some ((node "dob").getD "")
        ∧ (App.parsePrintLetter node).yob = some ((node "yob").getD "")
        ∧ (App.parsePrintLetter node).pin = some ((node "pc").getD ""))
    ∧ normalizeGender "M" = "Male"
    ∧ (∀ (jsonObj : String → Option (String → Option String)) (raw : String)
          (r : Contacts.Record),
        Contacts.parseJsonPayload jsonObj raw = some r →
        ∃ j : String → Option String,
          r = { username := cleanText (pickTruthy [j "username", j "user", j "name"])
                dob := cleanText (pickTruthy
                  [j "dob", j "dateOfBirth", j "birth", j "birthDate"])
                age := cleanText (pickTruthy [j "age"])
                gender := normalizeGender (pickTruthy [j "gender"])
                mobile := Contacts.cleanPhone (pickTruthy [j "mobile", j "phone", j "phoneNumber"])
                email := Contacts.cleanEmail (pickTruthy [j "email", j "mail"]) })
    ∧ (∀ (raw : String) (r : Contacts.Record),
        Contacts.parseKeyValuePayload raw = some r →
        ∃ get : String → Option String,
          r = { username := cleanText (pickTruthy [get "username", get "user", get "name"])
                dob := cleanText (pickTruthy
                  [get "dob", get "dateofbirth", get "birth", get "birthdate"])
                age := cleanText (pickTruthy [get "age"])
                gender := normalizeGender (pickTruthy [get "gender"])
                mobile := Contacts.cleanPhone (pickTruthy
                  [get "mobile", get "phone", get "phonenumber"])
                email := Contacts.cleanEmail (pickTruthy [get "email", get "mail"]) })
    ∧ (∀ (raw : String) (r : Contacts.Record),
        Contacts.parseDelimitedPayload raw = some r →
        ∃ parts : List (List Char),
          r = { username := cleanText (String.mk (parts.getD 0 []))
                dob := cleanText (String.mk (parts.getD 1 []))
                age := cleanText (String.mk (parts.getD 2 []))
                gender := normalizeGender (String.mk (parts.getD 3 []))
                mobile := Contacts.cleanPhone (String.mk (parts.getD 4 []))
                email := Contacts.cleanEmail (String.mk (parts.getD 5 [])) })
    ∧ (∀ (bytes : List Nat) (r : App.Record),
        App.parseSecureQrBytes bytes = some r →
        r.referenceId = some (App.secureDecodedField bytes 1)
        ∧ r.name = some (App.secureDecodedField bytes 2)
        ∧ r.dob = some (App.secureDecodedField bytes 3)
        ∧ r.gender = some (App.secureDecodedField bytes 4)
        ∧ r.pin = some (App.secureDecodedField bytes 10)
        ∧ r.address = some (joinAddress
            [App.secureDecodedField bytes 5, App.secureDecodedField bytes 8,
             App.secureDecodedField bytes 13, App.secureDecodedField bytes 7,
             App.secureDecodedField bytes 9, App.secureDecodedField bytes 15,
             App.secureDecodedField bytes 14, App.secureDecodedField bytes 6,
             App.secureDecodedField bytes 12, App.secureDecodedField bytes 10,
             App.secureDecodedField bytes 11])) := by
  refine ⟨fun node => ⟨rfl, rfl, rfl, rfl, rfl, rfl⟩, rfl, ?_, ?_, ?_, ?_⟩
  · intro jsonObj raw r h
    unfold Contacts.parseJsonPayload at h
    cases hj : jsonObj raw with
    | none => rw [hj] at h; cases h
    | some j =>
      rw [hj] at h
      injection h with h1
      exact ⟨j, h1.symm⟩
  · intro raw r h
    simp only [Contacts.parseKeyValuePayload] at h
    split at h
    · cases h
    · split at h
      · cases h
      · injection h with h1
        exact ⟨fun k => mapGet (Contacts.kvRecordObj (Contacts.kvScan raw.toList)) k,
          h1.symm⟩
  · intro raw r h
    simp only [Contacts.parseDelimitedPayload] at h
    split at h
    · cases h
    · split at h
      · cases h
      next d heq =>
        split at h
        · cases h
        · injection h with h1
          exact ⟨((Contacts.splitChar d (trimL raw.toList)).map trimL).filter
            (fun p => !p.isEmpty), h1.symm⟩
  · intro bytes r h
    by_cases hlen : (App.secureFields bytes).length < 16
    · rw [App.parseSecureQrBytes.eq_def] at h
      rw [if_pos hlen] at h
      cases h
    · have e : ∀ i : Nat, i < 16 →
          ((App.secureFields bytes).map
            (fun chunk => String.mk (cleanTextL (App.latin1Decode chunk)))).getD i ""
            = App.secureDecodedField bytes i :=
        fun i hi => getD_map_lt _ _ i [] "" (by omega)
      unfold App.parseSecureQrBytes at h
      rw [if_neg hlen] at h
      dsimp only at h
      split at h
      · cases h
      · injection h with h1
        subst h1
        refine ⟨?_, ?_, ?_, ?_, ?_, ?_⟩
        · exact congrArg some (e 1 (by omega))
        · exact congrArg some (e 2 (by omega))
        · exact congrArg some (e 3 (by omega))
        · exact congrArg some (e 4 (by omega))
        · exact congrArg some (e 10 (by omega))
        · rw [e 5 (by omega), e 8 (by omega), e 13 (by omega), e 7 (by omega),
            e 9 (by omega), e 15 (by omega), e 14 (by omega), e 6 (by omega),
            e 12 (by omega), e 10 (by omega), e 11 (by omega)]

/-- C2 (witness): the cleaning pipeline exercised at concrete inputs of each
grammar — a JSON object, a key-value payload and a delimited payload whose
gender `"M"` is stored normalized as `"Male"`, and a secure-format byte
sequence whose reference id is the cleaned decoding of its second field. -/
theorem c2_witness :
    (∃ j : String → Option String,
        ({ gender := "Male" } : Contacts.Record)
          = { username := cleanText (pickTruthy [j "username", j "user", j "name"])
              dob := cleanText (pickTruthy
                [j "dob", j "dateOfBirth", j "birth", j "birthDate"])
              age := cleanText (pickTruthy [j "age"])
              gender := normalizeGender (pickTruthy [j "gender"])
              mobile := Contacts.cleanPhone (pickTruthy [j "mobile", j "phone", j "phoneNumber"])
              email := Contacts.cleanEmail (pickTruthy [j "email", j "mail"]) })
    ∧ (∃ get : String → Option String,
        ({ gender := "Male" } : Contacts.Record)
          = { username := cleanText (pickTruthy [get "username", get "user", get "name"])
              dob := cleanText (pickTruthy
                [get "dob", get "dateofbirth", get "birth", get "birthdate"])
              age := cleanText (pickTruthy [get "age"])
              gender := normalizeGender (pickTruthy [get "gender"])
              mobile := Contacts.cleanPhone (pickTruthy
                [get "mobile", get "phone", get "phonenumber"])
              email := Contacts.cleanEmail (pickTruthy [get "email", get "mail"]) })
    ∧ (∃ parts : List (List Char),
        ({ username := "a", dob := "b", age := "c", gender := "Male",
           mobile := "1", email := "e@x" } : Contacts.Record)
          = { username := cleanText (String.mk (parts.getD 0 []))
              dob := cleanText (String.mk (parts.getD 1 []))
              age := cleanText (String.mk (parts.getD 2 []))
              gender := normalizeGender (String.mk (parts.getD 3 []))
              mobile := Contacts.cleanPhone (String.mk (parts.getD 4 []))
              email := Contacts.cleanEmail (String.mk (parts.getD 5 [])) })
    ∧ ({ referenceId := some "2", name := some "", gender := some "",
         dob := some "", address := some "", pin := some "",
         source := some "Secure QR" } : App.Record).referenceId
        = some (App.secureDecodedField ([49, 255, 50, 255] ++ List.replicate 14 255) 1) := by
  refine ⟨?_, ?_, ?_, ?_⟩
  · exact c2_gender_normalization_amended.2.2.1
      (fun _ => some (fun k => if k = "gender" then some "M" else none)) "x"
      { gender := "Male" } (by decide)
  · have hkv : Contacts.parseKeyValuePayload "gender:M" = some { gender := "Male" } := by
      have hscan : Contacts.kvScan "gender:M".toList
          = [(['g', 'e', 'n', 'd', 'e', 'r'], ['M'])] := by
        rw [kvScan_step (by decide :
          Contacts.kvMatchAt "gender:M".toList
            = some ((['g', 'e', 'n', 'd', 'e', 'r'], ['M']), [])), kvScan_nil]
      simp only [Contacts.parseKeyValuePayload, hscan]
      decide
    exact c2_gender_normalization_amended.2.2.2.1 "gender:M" { gender := "Male" } hkv
  · exact c2_gender_normalization_amended.2.2.2.2.1 "a|b|c|M|1|e@x"
      { username := "a", dob := "b", age := "c", gender := "Male",
        mobile := "1", email := "e@x" } (by decide)
  · exact (c2_gender_normalization_amended.2.2.2.2.2
      ([49, 255, 50, 255] ++ List.replicate 14 255)
      { referenceId := some "2", name := some "", gender := some "",
        dob := some "", address := some "", pin := some "",
        source := some "Secure QR" } (by decide)).1

/-- C3: the binary secure-format field step collects exactly the first 16
`0xFF`-delimited fields (scanning stops once 16 are found); it yields no
Record when fewer than 16 delimited fields exist, and none when the decoded
and cleaned format indicator (field 0) or reference id (field 1) is
empty. -/
theorem c3_secure_split_and_guards :
    ∀ bytes : List Nat,
      App.secureFields bytes = (App.delimChunks bytes).take 16
      ∧ ((App.delimChunks bytes).length < 16 → App.parseSecureQrBytes bytes = none)
      ∧ ((App.secureDecodedField bytes 0 = "" ∨ App.secureDecodedField bytes 1 = "") →
          App.parseSecureQrBytes bytes = none) := by
  intro bytes
  refine ⟨secureFields_take bytes, ?_, ?_⟩
  · intro h
    have hlen : (App.secureFields bytes).length < 16 := by
      rw [secureFields_take, List.length_take]; omega
    simp [App.parseSecureQrBytes, hlen]
  · intro h
    by_cases hlen : (App.secureFields bytes).length < 16
    · simp [App.parseSecureQrBytes, hlen]
    · have h0 : 0 < (App.secureFields bytes).length := by omega
      have h1 : 1 < (App.secureFields bytes).length := by omega
      have e0 : ((App.secureFields bytes).map
            (fun chunk => String.mk (cleanTextL (App.latin1Decode chunk)))).getD 0 ""
          = App.secureDecodedField bytes 0 :=
        getD_map_lt _ _ 0 [] "" h0
      have e1 : ((App.secureFields bytes).map
            (fun chunk => String.mk (cleanTextL (App.latin1Decode chunk)))).getD 1 ""
          = App.secureDecodedField bytes 1 :=
        getD_map_lt _ _ 1 [] "" h1
      unfold App.parseSecureQrBytes
      rw [if_neg hlen]
      dsimp only
      rw [e0, e1]
      rcases h with h | h <;> rw [h] <;> simp [empty_isEmpty]

/-- C3 (witness): the guards at concrete inputs — an empty byte sequence has
no fields, and sixteen bare delimiters give sixteen empty fields whose
indicator is empty; both yield no Record. -/
theorem c3_witness :
    App.parseSecureQrBytes [] = none
    ∧ App.parseSecureQrBytes (List.replicate 16 255) = none := by
  constructor
  · exact (c3_secure_split_and_guards []).2.1 (by decide)
  · exact (c3_secure_split_and_guards (List.replicate 16 255)).2.2 (Or.inl (by decide))

/-- C4: converting a non-negative integer to its minimal big-endian byte
sequence with `bigIntToBytes` and folding those bytes back (most-significant
first) recovers the integer, and zero converts to the single byte `0x00`. -/
theorem c4_bigint_bytes_roundtrip :
    (∀ value : Nat, App.bytesToNat (App.bigIntToBytes value) = value)
    ∧ App.bigIntToBytes 0 = [0] := by
  constructor
  · intro value
    by_cases h : value = 0
    · subst h; rfl
    · unfold App.bigIntToBytes App.bytesToNat
      rw [if_neg h, bigIntToBytesGo_foldl]
      simp
  · rfl

/-- C8: every successful upsert (non-empty dedup key) removes the key from
the order sequence and prepends it, in both variants; upserting keys A, B, A
from the empty store leaves the order sequence `[A, B]`. -/
theorem c8_upsert_ordering :
    (∀ (st : Store App.Record) (r : App.Record) (ns : String),
        App.recordKey r ≠ "" →
        (App.upsertRecord st r ns).1.order
          = App.recordKey r :: st.order.filter (fun item => item ≠ App.recordKey r))
    ∧ (∀ (st : Store Contacts.Record) (r : Contacts.Record),
        Contacts.recordKey r ≠ "" →
        (Contacts.upsertRecord st r).1.order
          = Contacts.recordKey r :: st.order.filter (fun item => item ≠ Contacts.recordKey r))
    ∧ (App.upsertRecord
        (App.upsertRecord
          (App.upsertRecord {} { uid := some "A" } "t1").1
          { uid := some "B" } "t2").1
        { uid := some "A" } "t3").1.order = ["A", "B"] := by
  refine ⟨?_, ?_, by decide⟩
  · intro st r ns hk
    simp [App.upsertRecord, isEmpty_false_of_ne hk]
  · intro st r hk
    simp [Contacts.upsertRecord, isEmpty_false_of_ne hk]

/-- C5: when the whitespace-stripped raw string is at least 50 decimal
digits (the binary secure-format precondition) but `DecompressionStream` is
absent, the scan handler reports the distinct capability-gap outcome — not
the generic unrecognized-format or secure-parse-failure outcome — and does
so without consulting the payload decoder or touching the store. -/
theorem c5_capability_gap :
    ∀ (env : App.Env) (st : App.ScanState) (value : String) (now : Int),
      ¬(st.lastValue = some value ∧ now - st.lastValueTs < duplicateCooldownMs) →
      isDigits50 (stripWs value) = true →
      env.hasDecompressionStream = false →
      App.handleScanResult env st value now
          = ({ st with lastValue := some value, lastValueTs := now }, .capabilityMissing)
        ∧ App.Outcome.capabilityMissing ≠ App.Outcome.unrecognizedFormat
        ∧ App.Outcome.capabilityMissing ≠ App.Outcome.secureDecodeFailed := by
  intro env st value now hdup hnum hcap
  refine ⟨?_, by decide, by decide⟩
  unfold App.handleScanResult
  rw [if_neg hdup]
  simp [hnum, hcap]

/-- C5 (witness): a 50-digit scan on an environment without decompression is
reported as the capability gap. -/
theorem c5_witness :
    App.handleScanResult sampleAppEnv {}
        "11111111111111111111111111111111111111111111111111" 0
      = ({ lastValue := some "11111111111111111111111111111111111111111111111111",
           lastValueTs := 0, store := {} }, .capabilityMissing) :=
  (c5_capability_gap sampleAppEnv {}
    "11111111111111111111111111111111111111111111111111" 0
    (by simp) (by decide) rfl).1

/-- C6: both decoder cascades are first-success folds over their fixed
grammar order — each cascade function equals the fold of its ordered grammar
list over the trimmed raw string — and a fold whose first grammar succeeds
returns that grammar's record, never consulting the remaining grammars. -/
theorem c6_cascade_first_success :
    (∀ (env : App.Env) (raw : String),
        App.parseAadhaarPayload env raw
          = if (trimS raw).isEmpty then none
            else firstSuccess
              [App.parseXmlPayload env.domParse, App.parseSecureQr env] (trimS raw))
    ∧ (∀ (env : Contacts.Env) (raw : String),
        Contacts.parseQrPayload env raw
          = if (trimS raw).isEmpty then none
            else firstSuccess
              [Contacts.parseJsonPayload env.jsonObj, Contacts.parseKeyValuePayload,
                Contacts.parseDelimitedPayload] (trimS raw))
    ∧ (∀ (α : Type) (g : String → Option α) (gs : List (String → Option α))
          (s : String) (r : α),
        g s = some r → firstSuccess (g :: gs) s = some r) := by
  refine ⟨?_, ?_, ?_⟩
  · intro env raw
    unfold App.parseAadhaarPayload
    by_cases ht : (trimS raw).isEmpty
    · simp [ht]
    · cases h1 : App.parseXmlPayload env.domParse (trimS raw) <;>
        cases h2 : App.parseSecureQr env (trimS raw) <;>
          simp [ht, firstSuccess, h1, h2, Option.orElse]
  · intro env raw
    unfold Contacts.parseQrPayload
    by_cases ht : (trimS raw).isEmpty
    · simp [ht]
    · cases h1 : Contacts.parseJsonPayload env.jsonObj (trimS raw) <;>
        cases h2 : Contacts.parseKeyValuePayload (trimS raw) <;>
          cases h3 : Contacts.parseDelimitedPayload (trimS raw) <;>
            simp [ht, firstSuccess, h1, h2, h3, Option.orElse]
  · intro α g gs s r h
    unfold firstSuccess
    simp only [List.foldl_cons]
    have hg : (none : Option α).orElse (fun _ => g s) = some r := by
      simp [Option.orElse, h]
    rw [hg]
    induction gs with
    | nil => simp
    | cons g' gs' ih =>
      simp only [List.foldl_cons]
      rw [show (some r).orElse (fun _ => g' s) = some r from rfl]
      exact ih

/-- C6 (witness): a one-grammar fold whose grammar succeeds returns its
record. -/
theorem c6_witness :
    firstSuccess [fun _ => some ({} : Contacts.Record)] "g" = some {} :=
  c6_cascade_first_success.2.2 Contacts.Record (fun _ => some {}) [] "g" {} rfl

/-- C7: in both variants, a raw string equal to the immediately preceding
delivered one that arrives within the 1200 ms window makes the handler
return the state unchanged with the suppressed outcome, for every
environment — so the payload decoder is never consulted and the store is
untouched. -/
theorem c7_duplicate_suppression :
    (∀ (env : App.Env) (st : App.ScanState) (value : String) (now : Int),
        st.lastValue = some value → now - st.lastValueTs < duplicateCooldownMs →
        App.handleScanResult env st value now = (st, .suppressed))
    ∧ (∀ (env : Contacts.Env) (st : Contacts.ScanState) (value : String) (now : Int),
        st.lastValue = some value → now - st.lastValueTs < duplicateCooldownMs →
        Contacts.handleScanResult env st value now = (st, .suppressed)) :=
  ⟨app_handle_suppressed, contacts_handle_suppressed⟩

/-- C7 (witness): a concrete duplicate within the window is suppressed in
both variants. -/
theorem c7_witness :
    App.handleScanResult sampleAppEnv
        { lastValue := some "v", lastValueTs := 0, store := {} } "v" 100
      = ({ lastValue := some "v", lastValueTs := 0, store := {} }, .suppressed)
    ∧ Contacts.handleScanResult sampleContactsEnv
        { lastValue := some "v", lastValueTs := 0, store := {} } "v" 100
      = ({ lastValue := some "v", lastValueTs := 0, store := {} }, .suppressed) := by
  constructor
  · exact c7_duplicate_suppression.1 sampleAppEnv _ "v" 100 rfl (by decide)
  · exact c7_duplicate_suppression.2 sampleContactsEnv _ "v" 100 rfl (by decide)

/-- C10: both handlers record the raw string and timestamp before attempting
any decode, so every non-suppressed delivery — in particular one whose
decode fails — arms the suppression window: an identical raw string arriving
within 1200 ms afterwards is a suppressed no-op under every environment
(the decoder is not invoked again). -/
theorem c10_failure_arms_suppression_window :
    (∀ (env : App.Env) (st : App.ScanState) (value : String) (now : Int),
        ¬(st.lastValue = some value ∧ now - st.lastValueTs < duplicateCooldownMs) →
        (App.handleScanResult env st value now).1.lastValue = some value
        ∧ (App.handleScanResult env st value now).1.lastValueTs = now
        ∧ ∀ (env2 : App.Env) (now2 : Int), now2 - now < duplicateCooldownMs →
            App.handleScanResult env2 (App.handleScanResult env st value now).1 value now2
              = ((App.handleScanResult env st value now).1, .suppressed))
    ∧ (∀ (env : Contacts.Env) (st : Contacts.ScanState) (value : String) (now : Int),
        ¬(st.lastValue = some value ∧ now - st.lastValueTs < duplicateCooldownMs) →
        (Contacts.handleScanResult env st value now).1.lastValue = some value
        ∧ (Contacts.handleScanResult env st value now).1.lastValueTs = now
        ∧ ∀ (env2 : Contacts.Env) (now2 : Int), now2 - now < duplicateCooldownMs →
            Contacts.handleScanResult env2
                (Contacts.handleScanResult env st value now).1 value now2
              = ((Contacts.handleScanResult env st value now).1, .suppressed)) := by
  constructor
  · intro env st value now hdup
    obtain ⟨h1, h2⟩ := app_handle_arms env st value now hdup
    exact ⟨h1, h2, fun env2 now2 hlt =>
      app_handle_suppressed env2 _ value now2 h1 (by rw [h2]; exact hlt)⟩
  · intro env st value now hdup
    obtain ⟨h1, h2⟩ := contacts_handle_arms env st value now hdup
    exact ⟨h1, h2, fun env2 now2 hlt =>
      contacts_handle_suppressed env2 _ value now2 h1 (by rw [h2]; exact hlt)⟩

/-- C10 (witness): a failed decode (no grammar matches) still arms the
window — the same raw string one millisecond later is suppressed. -/
theorem c10_witness :
    App.handleScanResult sampleAppEnv
        (App.handleScanResult sampleAppEnv {} "x" 5).1 "x" 6
      = ((App.handleScanResult sampleAppEnv {} "x" 5).1, .suppressed)
    ∧ Contacts.handleScanResult sampleContactsEnv
        (Contacts.handleScanResult sampleContactsEnv {} "" 5).1 "" 6
      = ((Contacts.handleScanResult sampleContactsEnv {} "" 5).1, .suppressed) := by
  constructor
  · exact (c10_failure_arms_suppression_window.1 sampleAppEnv {} "x" 5
      (by simp)).2.2 sampleAppEnv 6 (by decide)
  · exact (c10_failure_arms_suppression_window.2 sampleContactsEnv {} "" 5
      (by simp)).2.2 sampleContactsEnv 6 (by decide)

/-- C8 (witness): concrete successful upserts exercising the reordering in
both variants. -/
theorem c8_witness :
    (App.upsertRecord ({} : Store App.Record) { uid := some "K" } "t").1.order = ["K"]
    ∧ (Contacts.upsertRecord ({} : Store Contacts.Record) { email := "e" }).1.order
        = ["email:e"] := by
  constructor
  · have h := c8_upsert_ordering.1 {} { uid := some "K" } "t" (by decide)
    simpa using h
  · have h := c8_upsert_ordering.2.1 {} { email := "e" } (by decide)
    simpa using h

/-- C9: every store state reachable by the program's record-store operations
(the empty initial store, `upsertRecord`, the spec-modelled `clear`, and
restoring a previously produced snapshot) satisfies the lockstep invariant:
the order sequence is duplicate-free, the mapping has one entry per key, and
the two structures carry exactly the same key set; the `src/app.js`
`upsertRecord` preserves the same invariant. -/
theorem c9_store_lockstep :
    (∀ s : Store Contacts.Record, Contacts.Reach s → StoreInv s)
    ∧ (∀ (st : Store App.Record) (r : App.Record) (ns : String),
        StoreInv st → StoreInv (App.upsertRecord st r ns).1) := by
  constructor
  · intro s hs
    induction hs with
    | init => exact storeInv_empty
    | upsert r _ ih => exact contacts_upsert_inv ih r
    | clear _ => exact storeInv_empty
    | restore _ _ _ ihs' =>
      apply loadRecords_inv _ _ storeInv_empty
      · rw [saveRecords_keys]
        exact (ihs'.1.filter _).filter _
      · intro k _ _
        simp [Contacts.clearStore]
  · intro st r ns h
    exact app_upsert_inv h r ns

/-- C9 (witness): the invariant at concrete reachable states of both
variants. -/
theorem c9_witness :
    StoreInv (Contacts.upsertRecord ({} : Store Contacts.Record) { email := "e" }).1
    ∧ StoreInv (App.upsertRecord ({} : Store App.Record) { uid := some "u" } "t").1 :=
  ⟨c9_store_lockstep.1 _ (Contacts.Reach.upsert { email := "e" } Contacts.Reach.init),
   c9_store_lockstep.2 {} { uid := some "u" } "t" storeInv_empty⟩

end QrSpec
